import Mathlib

/-!
Verification of the sales-analysis pipeline (homework_1.py, homework_1_improved.py,
homework_2.py): a shallow embedding of the pandas data flow.

Conventions of the embedding:
* A DataFrame is a `List` of row structures; the Chinese column names of the
  source map to the field names used by the design document:
  商品编号 ↦ `product_id`, 商品销售价 ↦ `unit_price`, 商品大类 ↦ `category`,
  订单日期 ↦ `order_date`, 订单数量 ↦ `quantity`, 销售金额 ↦ `revenue`,
  月份 ↦ `month`.
* Numeric cells are `ℚ`; a pandas `NaN` cell is `none` of an `Option`.
* `pd.to_datetime` is modelled on ISO `YYYY-MM-DD` text, failing (as the pandas
  call raises) at the position of the first unparseable entry.
* String comparison (used by `sort_values` / sorted `groupby` keys) is the
  lexicographic order on the character list `String.data`.
-/

/-- A raw cell of the 商品销售价 column as loaded from Excel: a number, a text
value, or a missing cell (`NaN`). A column whose cells are all `num`/`null` has
numeric dtype; any `str` cell makes the dtype non-numeric (object). -/
inductive RawVal where
  | num (q : ℚ)
  | str (s : String)
  | null
deriving DecidableEq, Repr

/-- A row of the 信息表 (product catalog): 商品编号, 商品销售价, 商品大类. -/
structure InfoRow where
  product_id : String
  unit_price : RawVal
  category : Option String
deriving DecidableEq, Repr

/-- A row of the 销售数据表 (transactions): 订单日期, 商品编号, 订单数量. -/
structure SalesRow where
  order_date : String
  product_id : String
  quantity : ℚ
deriving DecidableEq, Repr

/-- A row of `df_merged` right after `pd.merge(df_sales, df_info, on='商品编号',
how='left')`: transaction columns plus the joined 商品销售价 (and 商品大类,
kept by the full merge of homework_2.py; homework_1*.py projects the price
columns only, which does not affect any column those scripts read). An
unmatched product id leaves `unit_price` (and `category`) as `NaN`. -/
structure MergedRow where
  order_date : String
  product_id : String
  quantity : ℚ
  unit_price : Option ℚ
  category : Option String
deriving DecidableEq, Repr

/-- A `df_merged` row after the derive step: 销售金额 (`revenue`) and the
月份 key (`month`, the `strftime('%Y-%m')` text) have been added. -/
structure DerivedRow where
  order_date : String
  product_id : String
  quantity : ℚ
  unit_price : Option ℚ
  category : Option String
  revenue : Option ℚ
  month : String
deriving DecidableEq, Repr

/-- Numeric view of a raw price cell: a `num` cell is a number, text and `NaN`
cells are missing (`pd.to_numeric` coercion result for non-numeric text). -/
def RawVal.toPrice : RawVal → Option ℚ
  | .num q => some q
  | .str _ => none
  | .null => none

/-- Whether the 商品销售价 column has numeric dtype
(`pd.api.types.is_numeric_dtype`): true iff no cell is text. -/
def is_numeric_dtype (col : List RawVal) : Bool :=
  col.all fun v => match v with
    | .str _ => false
    | _ => true

/-- Decimal digit value of a character, `none` on a non-digit. -/
def digitVal (c : Char) : Option ℕ :=
  if '0' ≤ c ∧ c ≤ '9' then some (c.toNat - 48) else none

/-- Accumulating decimal reader over characters; fails on a non-digit. -/
def digitsValAux : List Char → ℕ → Option ℕ
  | [], acc => some acc
  | c :: cs, acc =>
    match digitVal c with
    | some d => digitsValAux cs (acc * 10 + d)
    | none => none

/-- Reads a nonempty all-digit character list as a natural number. -/
def digitsVal : List Char → Option ℕ
  | [] => none
  | c :: cs => digitsValAux (c :: cs) 0

/-- Models `pd.to_numeric(·, errors='coerce')` on one raw cell: numbers stay,
digit text becomes the number it spells, any other text coerces to `NaN`. -/
def to_numeric_cell (v : RawVal) : RawVal :=
  match v with
  | .num q => .num q
  | .null => .null
  | .str s =>
    match digitsVal s.data with
    | some n => .num (n : ℚ)
    | none => .null

/-- The left merge `pd.merge(df_sales, df_info, on='商品编号', how='left')`:
each transaction row is emitted once per matching catalog row, in catalog
order, or once with `NaN` price/category when no catalog row matches. Output
keeps transaction order (stable left join). -/
def merge_sales_info (info : List InfoRow) : List SalesRow → List MergedRow
  | [] => []
  | t :: ts =>
    (match info.filter (fun c => c.product_id = t.product_id) with
     | [] => [⟨t.order_date, t.product_id, t.quantity, none, none⟩]
     | m :: ms => (m :: ms).map fun c =>
         ⟨t.order_date, t.product_id, t.quantity, c.unit_price.toPrice, c.category⟩)
    ++ merge_sales_info info ts

/-- `df_merged['商品销售价'].isnull().sum()`: the number of merged rows whose
joined price is missing. -/
def missing_prices (m : List MergedRow) : ℕ :=
  (m.filter fun r => r.unit_price = none).length

/-- The non-null catalog prices, as read by `df_info['商品销售价'].mean()`
(pandas `mean` skips `NaN`). -/
def catalog_prices (info : List InfoRow) : List ℚ :=
  info.filterMap fun r => r.unit_price.toPrice

/-- `df_info['商品销售价'].mean()`: the arithmetic mean of the non-null catalog
prices, `NaN` (`none`) when there is none to average. -/
def avg_price (info : List InfoRow) : Option ℚ :=
  match catalog_prices info with
  | [] => none
  | p :: ps => some (((p :: ps).sum) / ((p :: ps).length : ℚ))

/-- `Series.fillna(v)` on the price column; filling with `NaN` (`v = none`)
leaves missing cells missing, as in pandas. -/
def fillna_price (m : List MergedRow) (v : Option ℚ) : List MergedRow :=
  m.map fun r => { r with unit_price := r.unit_price.or v }

/-- The merge-and-fill step of `process_data` (homework_1_improved.py lines
117–130): merge, count missing prices, and only when some are missing fill
them with the catalog mean. -/
def df_merged_of (info : List InfoRow) (sales : List SalesRow) : List MergedRow :=
  let merged := merge_sales_info info sales
  if 0 < missing_prices merged then fillna_price merged (avg_price info) else merged

/-- Splits a character list at `'-'` separators (the shape of `str.split('-')`
on date text). -/
def splitDash : List Char → List (List Char)
  | [] => [[]]
  | c :: cs =>
    if c = '-' then [] :: splitDash cs
    else
      match splitDash cs with
      | [] => [[c]]
      | g :: gs => (c :: g) :: gs

/-- Models parsing of one `order_date` cell by `pd.to_datetime`: ISO
`YYYY-MM-DD` text yields `(year, month, day)`; anything else fails. -/
def parseDate (s : String) : Option (ℕ × ℕ × ℕ) :=
  match splitDash s.data with
  | [ys, ms, ds] =>
    match digitsVal ys, digitsVal ms, digitsVal ds with
    | some y, some m, some d =>
      if 1 ≤ m ∧ m ≤ 12 ∧ 1 ≤ d ∧ d ≤ 31 then some (y, m, d) else none
    | _, _, _ => none
  | _ => none

/-- `pd.to_datetime` over the whole 订单日期 column: raises (here:
`Except.error i`) at the position `i` of the first unparseable entry,
otherwise converts every entry. No partially converted column exists. -/
def to_datetime (dates : List String) : Except ℕ (List (ℕ × ℕ × ℕ)) :=
  match dates.findIdx? (fun s => (parseDate s).isNone) with
  | some i => .error i
  | none => .ok (dates.filterMap parseDate)

/-- `strftime('%Y-%m')` of a parsed date: the year digits, a dash, and the
zero-padded two-digit month. -/
def strftime_YM (y m : ℕ) : String :=
  ⟨Nat.toDigits 10 y ++ '-' ::
    (if m < 10 then '0' :: Nat.toDigits 10 m else Nat.toDigits 10 m)⟩

/-- The derive step on one merged row whose date parsed to `ymd`:
销售金额 = 订单数量 * 商品销售价 (`NaN` when the price is `NaN`) and
月份 = `strftime('%Y-%m')`. -/
def deriveRow (r : MergedRow) (ymd : ℕ × ℕ × ℕ) : DerivedRow :=
  ⟨r.order_date, r.product_id, r.quantity, r.unit_price, r.category,
   r.unit_price.map (fun p => r.quantity * p), strftime_YM ymd.1 ymd.2.1⟩

/-- The derive step of the pipeline (homework_1_improved.py lines 133–140):
compute 销售金额, convert 订单日期, extract 月份. The `pd.to_datetime` call
raises at the first bad date, so the step is all-or-nothing: `Except.error i`
names the offending row position and no derived table is produced. -/
def derive_rows (m : List MergedRow) : Except ℕ (List DerivedRow) :=
  match to_datetime (m.map fun r => r.order_date) with
  | .error i => .error i
  | .ok _ => .ok (m.filterMap fun r => (parseDate r.order_date).map (deriveRow r))

/-- Lexicographic string order on the character lists, the order pandas uses
to sort 月份 text keys. -/
def strLe (a b : String) : Prop := a.data ≤ b.data

/-- Strict lexicographic string order. -/
def strLt (a b : String) : Prop := a.data < b.data

instance : DecidableRel strLe := fun a b => inferInstanceAs (Decidable (a.data ≤ b.data))

instance : DecidableRel strLt := fun a b => inferInstanceAs (Decidable (a.data < b.data))

instance : IsTotal String strLe := ⟨fun a b => le_total a.data b.data⟩

instance : IsTrans String strLe := ⟨fun _ _ _ h h' => le_trans h h'⟩

instance : IsRefl String strLe := ⟨fun a => le_refl a.data⟩

/-- Order on single-key summary rows by the 月份 column, as used by
`sort_values('月份')`. -/
def monthLe (a b : String × ℚ) : Prop := strLe a.1 b.1

instance : DecidableRel monthLe := fun a b => inferInstanceAs (Decidable (strLe a.1 b.1))

instance : IsTotal (String × ℚ) monthLe := ⟨fun a b => total_of strLe a.1 b.1⟩

instance : IsTrans (String × ℚ) monthLe := ⟨fun _ _ _ h h' => Trans.trans (r := strLe) h h'⟩

instance : IsRefl (String × ℚ) monthLe := ⟨fun a => refl_of strLe a.1⟩

/-- Lexicographic order on (月份, 商品大类) key pairs: the order in which a
sorted two-key `groupby` emits its groups. -/
def pairLe (a b : String × String) : Prop :=
  strLt a.1 b.1 ∨ (a.1 = b.1 ∧ strLe a.2 b.2)

instance : DecidableRel pairLe := fun a b =>
  inferInstanceAs (Decidable (strLt a.1 b.1 ∨ (a.1 = b.1 ∧ strLe a.2 b.2)))

instance : IsTotal (String × String) pairLe := by
  constructor
  intro a b
  rcases lt_trichotomy a.1.data b.1.data with h | h | h
  · exact Or.inl (Or.inl h)
  · have he : a.1 = b.1 := String.ext h
    rcases le_total a.2.data b.2.data with h2 | h2
    · exact Or.inl (Or.inr ⟨he, h2⟩)
    · exact Or.inr (Or.inr ⟨he.symm, h2⟩)
  · exact Or.inr (Or.inl h)

instance : IsTrans (String × String) pairLe := by
  constructor
  rintro a b c (h | ⟨he, h2⟩) (h' | ⟨he', h2'⟩)
  · exact Or.inl (lt_trans h h')
  · exact Or.inl (he' ▸ h)
  · exact Or.inl (he ▸ h')
  · exact Or.inr ⟨he.trans he', le_trans h2 h2'⟩

instance : IsRefl (String × String) pairLe := ⟨fun a => Or.inr ⟨rfl, le_refl a.2.data⟩⟩

/-- Sorted distinct group keys: a `groupby(sort=True)` sorts its group labels
ascending. `dedup` collects the distinct labels; sorting makes their order
canonical. -/
def sorted_month_keys (rows : List DerivedRow) : List String :=
  List.insertionSort strLe ((rows.map fun r => r.month).dedup)

/-- Revenue sum of one month group: `groupby('月份')['销售金额'].sum()` skips
`NaN` revenues (they contribute nothing). -/
def month_group_sum (rows : List DerivedRow) (k : String) : ℚ :=
  ((rows.filter fun r => r.month = k).filterMap fun r => r.revenue).sum

/-- `df_merged.groupby('月份')['销售金额'].sum().reset_index()`: one row per
distinct month, keys ascending, value the group's revenue sum. -/
def groupby_month_sum (rows : List DerivedRow) : List (String × ℚ) :=
  (sorted_month_keys rows).map fun k => (k, month_group_sum rows k)

/-- `monthly_sales` of homework_1_improved.py lines 143–144: the grouped sums,
re-sorted by 月份 (`sort_values('月份')`; a no-op on the already sorted keys,
kept for faithfulness). -/
def monthly_sales_of (rows : List DerivedRow) : List (String × ℚ) :=
  List.insertionSort monthLe (groupby_month_sum rows)

/-- The (月份, 商品大类) keyed values a two-key `groupby` sees: rows whose
商品大类 is `NaN` are dropped (pandas `groupby` default `dropna=True`). -/
def keyed_rows (rows : List DerivedRow) : List ((String × String) × Option ℚ) :=
  rows.filterMap fun r => r.category.map fun c => ((r.month, c), r.revenue)

/-- Revenue sum of one (月份, 商品大类) group, skipping `NaN` revenues. -/
def pair_group_sum (rows : List DerivedRow) (k : String × String) : ℚ :=
  (((keyed_rows rows).filter fun x => x.1 = k).filterMap fun x => x.2).sum

/-- Sorted distinct (月份, 商品大类) keys of the two-key `groupby`. -/
def sorted_pair_keys (rows : List DerivedRow) : List (String × String) :=
  List.insertionSort pairLe (((keyed_rows rows).map fun x => x.1).dedup)

/-- `monthly_category_sales` of homework_2.py line 26:
`df_merged.groupby(['月份', '商品大类'])['销售金额'].sum().reset_index()` —
one row per distinct key pair, keys sorted ascending (month first, then
category), value the group's revenue sum. -/
def monthly_category_sales_of (rows : List DerivedRow) : List ((String × String) × ℚ) :=
  (sorted_pair_keys rows).map fun k => (k, pair_group_sum rows k)

/-- The reshaped pivot result: row labels (月份), column labels (商品大类) and
the cell matrix, row-major and aligned with `index × columns`. A cell holds
`none` where the source table has no row for its (month, category) pair —
pandas leaves such cells `NaN`. -/
structure PivotFrame where
  index : List String
  columns : List String
  cells : List (List (Option ℚ))
deriving DecidableEq, Repr

/-- The value `DataFrame.pivot` places in cell (`m`, `c`): the 销售金额 of the
unique source row with that key, `NaN` (`none`) when there is no such row. -/
def pivot_cell (summary : List ((String × String) × ℚ)) (m c : String) : Option ℚ :=
  (summary.find? fun r => r.1 = (m, c)).map fun r => r.2

/-- `pivot_data` of homework_2.py line 34:
`monthly_category_sales.pivot(index='月份', columns='商品大类', values='销售金额')`.
`DataFrame.pivot` raises `ValueError` when the (index, columns) pairs contain
duplicates; otherwise rows are the distinct months, columns the distinct
categories (both sorted), and each absent combination is a `NaN` cell. -/
def pivot_data_of (summary : List ((String × String) × ℚ)) : Except String PivotFrame :=
  if (summary.map fun r => r.1).Nodup then
    let idx := List.insertionSort strLe ((summary.map fun r => r.1.1).dedup)
    let cols := List.insertionSort strLe ((summary.map fun r => r.1.2).dedup)
    .ok ⟨idx, cols, idx.map fun m => cols.map fun c => pivot_cell summary m c⟩
  else
    .error "Index contains duplicate entries, cannot reshape"

/-- `calculate_growth_rate` (homework_1_improved.py lines 268–279): `0` for
fewer than two monthly rows, `0` when the first month's revenue is `0`, else
the percentage change from `iloc[0]` to `iloc[-1]`. -/
def calculate_growth_rate (ms : List (String × ℚ)) : ℚ :=
  if ms.length < 2 then 0
  else
    let first_month := ms.headI.2
    let last_month := ms.getLastI.2
    if first_month = 0 then 0
    else (last_month - first_month) / first_month * 100

/-- First index of the maximal value (`Series.idxmax`), `none` on an empty
series. -/
def idxmax (l : List ℚ) : Option ℕ :=
  l.max?.bind fun m => l.findIdx? fun v => v = m

/-- First index of the minimal value (`Series.idxmin`). -/
def idxmin (l : List ℚ) : Option ℕ :=
  l.min?.bind fun m => l.findIdx? fun v => v = m

/-- The `basic_info`/`growth_info` metrics assembled by `generate_report`.
Aggregates of an empty series (`mean`, `max`, `min`, `idxmax`, `idxmin`) are
represented as `none`. -/
structure Report where
  total_orders : ℕ
  total_months : ℕ
  total_sales : ℚ
  avg_monthly_sales : Option ℚ
  max_monthly_sales : Option ℚ
  min_monthly_sales : Option ℚ
  best_month : Option String
  worst_month : Option String
  sales_growth_rate : ℚ
deriving DecidableEq, Repr

/-- Builds the report dictionary from `df_merged` and `monthly_sales`. -/
def mkReport (merged : List MergedRow) (ms : List (String × ℚ)) : Report :=
  let revs := ms.map fun r => r.2
  { total_orders := merged.length
    total_months := ms.length
    total_sales := revs.sum
    avg_monthly_sales := if ms.length = 0 then none else some (revs.sum / (ms.length : ℚ))
    max_monthly_sales := revs.max?
    min_monthly_sales := revs.min?
    best_month := (idxmax revs).bind fun i => (ms.get? i).map fun r => r.1
    worst_month := (idxmin revs).bind fun i => (ms.get? i).map fun r => r.1
    sales_growth_rate := calculate_growth_rate ms }

/-- The mutable state of a `SalesDataAnalyzer` instance: the four table
attributes set by `__init__` to `None` and filled in by the pipeline stages.
(`df_merged` holds the merged-and-filled frame; the derived 销售金额/月份
columns live in the `DerivedRow` view produced inside `process_data`.) -/
structure SalesDataAnalyzer where
  df_info : Option (List InfoRow)
  df_sales : Option (List SalesRow)
  df_merged : Option (List MergedRow)
  monthly_sales : Option (List (String × ℚ))
deriving DecidableEq, Repr

/-- The state `__init__` leaves behind: all four tables `None`. -/
def SalesDataAnalyzer.init : SalesDataAnalyzer := ⟨none, none, none, none⟩

/-- `validate_and_clean_data` (homework_1_improved.py lines 75–104). Raises
(`Except.error`) when data was not loaded. The missing-value counts and
required-column checks only log (columns are structure fields here, hence
present). When the 商品销售价 column is not numeric dtype the method
reassigns the coerced column onto the stored `df_info` in place. Returns the
new state and the outcome. -/
def SalesDataAnalyzer.validate_and_clean_data (a : SalesDataAnalyzer) :
    SalesDataAnalyzer × Except String Unit :=
  match a.df_info, a.df_sales with
  | some info, some _ =>
    if is_numeric_dtype (info.map fun r => r.unit_price) then (a, .ok ())
    else
      ({ a with df_info := some (info.map fun r =>
          { r with unit_price := to_numeric_cell r.unit_price }) }, .ok ())
  | _, _ => (a, .error "请先加载数据")

/-- `process_data` (homework_1_improved.py lines 106–149). Raises when data
was not loaded. Otherwise merges and fills prices (stored into `df_merged`),
then derives 销售金额/月份 — a bad date makes `pd.to_datetime` raise after
`df_merged` was already assigned — and finally groups and sorts into
`monthly_sales`. -/
def SalesDataAnalyzer.process_data (a : SalesDataAnalyzer) :
    SalesDataAnalyzer × Except String (List MergedRow) :=
  match a.df_info, a.df_sales with
  | some info, some sales =>
    let merged := df_merged_of info sales
    match derive_rows merged with
    | .error i =>
      ({ a with df_merged := some merged }, .error ("unparseable date at position " ++ toString i))
    | .ok rows =>
      ({ a with df_merged := some merged, monthly_sales := some (monthly_sales_of rows) },
       .ok merged)
  | _, _ => (a, .error "请先加载数据")

/-- `generate_report` (homework_1_improved.py lines 239–266). Raises when the
data was not processed; otherwise computes the report without touching any
stored table. -/
def SalesDataAnalyzer.generate_report (a : SalesDataAnalyzer) :
    SalesDataAnalyzer × Except String Report :=
  match a.df_merged, a.monthly_sales with
  | some merged, some ms => (a, .ok (mkReport merged ms))
  | _, _ => (a, .error "请先处理数据")

/-- `create_sales_trend_chart` (homework_1_improved.py lines 151–237). Raises
when the data was not processed; the chart rendering itself is an external
collaborator, modelled as a successful no-op on the analyzer state. -/
def SalesDataAnalyzer.create_sales_trend_chart (a : SalesDataAnalyzer) :
    SalesDataAnalyzer × Except String Unit :=
  match a.monthly_sales with
  | some _ => (a, .ok ())
  | none => (a, .error "请先处理数据")

/-- Modelled from the spec: the first-seen order of the 商品大类 values among
the rows of one month — the secondary-key tie-break order that §4.4 of the
design document prescribes for a two-key SummaryTable. -/
def first_seen_categories (rows : List DerivedRow) (m : String) : List String :=
  ((rows.filter fun r => r.month = m).filterMap fun r => r.category).foldl
    (fun acc c => if c ∈ acc then acc else acc ++ [c]) []

lemma length_filter_le_one_of_nodup_map {α β : Type} [DecidableEq β] (f : α → β) (pid : β) :
    ∀ l : List α, (l.map f).Nodup → (l.filter fun c => f c = pid).length ≤ 1
  | [], _ => by simp
  | c :: cs, h => by
    simp only [List.map_cons, List.nodup_cons, List.mem_map] at h
    by_cases hc : f c = pid
    · have hnil : cs.filter (fun c => f c = pid) = [] := by
        rw [List.filter_eq_nil_iff]
        intro x hx
        simp only [decide_eq_true_eq]
        intro hfx
        exact h.1 ⟨x, hx, by rw [hfx, hc]⟩
      simp [List.filter_cons, hc, hnil]
    · have ih := length_filter_le_one_of_nodup_map f pid cs h.2
      simpa [List.filter_cons, hc] using ih

/-- C1: for a catalog with unique product ids, the left join emits exactly one
output row per transaction row — no row dropped, no row duplicated — whether
or not the transaction's product id has a catalog match. -/
theorem join_preserves_length (info : List InfoRow) (sales : List SalesRow)
    (h : (info.map fun r => r.product_id).Nodup) :
    (merge_sales_info info sales).length = sales.length := by
  induction sales with
  | nil => rfl
  | cons t ts ih =>
    have hle := length_filter_le_one_of_nodup_map
      (fun r : InfoRow => r.product_id) t.product_id info h
    rw [merge_sales_info]
    cases hf : info.filter (fun c => c.product_id = t.product_id) with
    | nil =>
      simpa using ih
    | cons m ms =>
      rw [hf] at hle
      simp only [List.length_cons] at hle
      have hms : ms = [] := List.length_eq_zero.mp (by omega)
      subst hms
      simpa using ih

theorem join_preserves_length_witness :
    (merge_sales_info
        [⟨"A", .num 10, none⟩, ⟨"B", .num 20, none⟩]
        [⟨"2022-01-05", "A", 2⟩, ⟨"2022-01-20", "B", 3⟩, ⟨"2022-02-01", "C", 1⟩]).length
      = 3 :=
  join_preserves_length
    [⟨"A", .num 10, none⟩, ⟨"B", .num 20, none⟩]
    [⟨"2022-01-05", "A", 2⟩, ⟨"2022-01-20", "B", 3⟩, ⟨"2022-02-01", "C", 1⟩]
    (by decide)

lemma sum_map_add_q {α : Type} (f g : α → ℚ) :
    ∀ l : List α, (l.map fun x => f x + g x).sum = (l.map f).sum + (l.map g).sum
  | [] => by simp
  | x :: l => by
    simp only [List.map_cons, List.sum_cons, sum_map_add_q f g l]
    ring

lemma sum_map_ite_eq {K : Type} [DecidableEq K] (c : ℚ) (x : K) :
    ∀ ks : List K, ks.Nodup → x ∈ ks →
      (ks.map fun k => if x = k then c else 0).sum = c
  | [], _, hx => by cases hx
  | k :: ks, hnd, hx => by
    simp only [List.nodup_cons] at hnd
    rcases List.mem_cons.mp hx with h | h
    · subst h
      have hz : (ks.map fun k' => if x = k' then c else 0).sum = 0 := by
        apply List.sum_eq_zero
        intro v hv
        rcases List.mem_map.mp hv with ⟨k', hk', hkv⟩
        have hne : x ≠ k' := fun he => hnd.1 (he ▸ hk')
        rw [if_neg hne] at hkv
        exact hkv.symm
      simp [hz]
    · have hne : x ≠ k := fun he => hnd.1 (he ▸ h)
      have ih := sum_map_ite_eq c x ks hnd.2 h
      simp [hne, ih]

lemma groupkey_sum_eq {α K : Type} [DecidableEq K] (key : α → K) (val : α → Option ℚ) :
    ∀ (rows : List α) (ks : List K), ks.Nodup → (∀ r ∈ rows, key r ∈ ks) →
      (ks.map fun k => ((rows.filter fun r => key r = k).filterMap val).sum).sum
        = (rows.filterMap val).sum
  | [], ks, _, _ => by simp
  | r :: rows, ks, hnd, hcov => by
    have ih := groupkey_sum_eq key val rows ks hnd
      (fun x hx => hcov x (List.mem_cons_of_mem _ hx))
    have hsplit : (ks.map fun k =>
        (((r :: rows).filter fun x => key x = k).filterMap val).sum)
        = ks.map fun k =>
            (if key r = k then (val r).getD 0 else 0)
              + ((rows.filter fun x => key x = k).filterMap val).sum := by
      apply List.map_congr_left
      intro k _
      by_cases hk : key r = k
      · cases hv : val r <;>
          simp [List.filter_cons, hk, List.filterMap_cons, hv]
      · simp [List.filter_cons, hk]
    rw [hsplit, sum_map_add_q, sum_map_ite_eq ((val r).getD 0) (key r) ks hnd
      (hcov r (List.mem_cons_self r rows)), ih]
    cases hv : val r <;> simp [List.filterMap_cons, hv]

/-- C7: aggregation conserves revenue — the revenue column of the monthly
summary sums to the sum of the non-null revenues of the enriched rows. -/
theorem aggregation_conserves_revenue (rows : List DerivedRow) :
    ((monthly_sales_of rows).map fun r => r.2).sum
      = (rows.filterMap fun r => r.revenue).sum := by
  have hperm : List.Perm (monthly_sales_of rows) (groupby_month_sum rows) :=
    List.perm_insertionSort _ _
  have h1 : ((monthly_sales_of rows).map fun r => r.2).sum
      = ((groupby_month_sum rows).map fun r => r.2).sum :=
    (hperm.map _).sum_eq
  have h2 : ((groupby_month_sum rows).map fun r => r.2)
      = (sorted_month_keys rows).map fun k => month_group_sum rows k := by
    simp [groupby_month_sum, List.map_map]
  have hnd : (sorted_month_keys rows).Nodup :=
    ((List.perm_insertionSort strLe _).nodup_iff).mpr (List.nodup_dedup _)
  have hcov : ∀ r ∈ rows, r.month ∈ sorted_month_keys rows := by
    intro r hr
    exact ((List.perm_insertionSort strLe _).mem_iff).mpr
      (List.mem_dedup.mpr (List.mem_map_of_mem _ hr))
  rw [h1, h2]
  exact groupkey_sum_eq (fun r : DerivedRow => r.month) (fun r => r.revenue) rows
    (sorted_month_keys rows) hnd hcov

/-- C10: the duplicate-entry error branch of the pivot is unreachable when the
pivot consumes the two-key group-by summary, because grouping leaves at most
one row per (month, category) pair. -/
theorem pivot_duplicate_branch_unreachable (rows : List DerivedRow) :
    ((pivot_data_of (monthly_category_sales_of rows)).toOption).isSome = true := by
  have hk : (monthly_category_sales_of rows).map (fun r => r.1) = sorted_pair_keys rows := by
    simp [monthly_category_sales_of, List.map_map, Function.comp_def]
  have hnd : ((monthly_category_sales_of rows).map fun r => r.1).Nodup := by
    rw [hk]
    exact ((List.perm_insertionSort pairLe _).nodup_iff).mpr (List.nodup_dedup _)
  simp only [pivot_data_of]
  rw [if_pos hnd]
  rfl

/-- C8 counterexample: with two rows of the same month whose categories appear
in the order B then A, the two-key summary lists category A first (pandas
sorts group keys), not the first-seen order B, A that the claim states. -/
theorem category_order_not_first_seen :
    ((monthly_category_sales_of
        [⟨"2022-01-05", "B1", 1, some 1, some "B", some 1, "2022-01"⟩,
         ⟨"2022-01-06", "A1", 1, some 2, some "A", some 2, "2022-01"⟩]).map fun r => r.1.2)
      = ["A", "B"] ∧
    first_seen_categories
        [⟨"2022-01-05", "B1", 1, some 1, some "B", some 1, "2022-01"⟩,
         ⟨"2022-01-06", "A1", 1, some 2, some "A", some 2, "2022-01"⟩] "2022-01"
      = ["B", "A"] ∧
    (["A", "B"] : List String) ≠ ["B", "A"] :=
  ⟨by decide, by decide, by decide⟩

/-- C8 as amended: every summary is sorted ascending by month key; in the
two-key summary, rows of the same month are ordered ascending by the category
key (pandas sorts group keys), not by first-seen order. -/
theorem summary_sorted_by_keys (rows : List DerivedRow) :
    (monthly_sales_of rows).Sorted monthLe ∧
    ((monthly_category_sales_of rows).map fun r => r.1).Sorted pairLe := by
  constructor
  · exact List.sorted_insertionSort monthLe _
  · have hk : (monthly_category_sales_of rows).map (fun r => r.1) = sorted_pair_keys rows := by
      simp [monthly_category_sales_of, List.map_map, Function.comp_def]
    rw [hk]
    exact List.sorted_insertionSort pairLe _

instance {ε α : Type} [DecidableEq ε] [DecidableEq α] : DecidableEq (Except ε α) := by
  intro a b
  cases a <;> cases b
  case error.error e e' => exact decidable_of_iff (e = e') (by simp)
  case ok.ok v v' => exact decidable_of_iff (v = v') (by simp)
  all_goals exact isFalse (by simp)

/-- C2 counterexample: pivoting the summary [((2022-01, A), 10), ((2022-02, B), 20)]
leaves the (2022-01, B) cell `NaN` (`none`), not the explicit zero the claim
states — `DataFrame.pivot` has no `fill_value`. -/
theorem pivot_missing_cell_is_nan :
    pivot_data_of [(("2022-01", "A"), (10 : ℚ)), (("2022-02", "B"), (20 : ℚ))]
      = .ok ⟨["2022-01", "2022-02"], ["A", "B"],
             [[some 10, none], [none, some 20]]⟩ ∧
    (none : Option ℚ) ≠ some 0 :=
  ⟨by decide, by decide⟩

/-- C2 as amended: whenever the pivot succeeds, every month of the summary is a
row and every category of the summary is a column, the cell matrix covers every
(month, category) combination, and a combination with no matching summary row
holds an explicit `NaN` (`none`) cell — not zero, and not omitted. -/
theorem pivot_completeness_with_nan (s : List ((String × String) × ℚ)) (P : PivotFrame)
    (h : pivot_data_of s = .ok P) :
    (∀ r ∈ s, r.1.1 ∈ P.index ∧ r.1.2 ∈ P.columns) ∧
    P.cells = P.index.map (fun m => P.columns.map fun c => pivot_cell s m c) ∧
    (∀ m c, (∀ r ∈ s, r.1 ≠ (m, c)) → pivot_cell s m c = none) := by
  by_cases hnd : (s.map fun r => r.1).Nodup
  · simp only [pivot_data_of] at h
    rw [if_pos hnd] at h
    cases h
    refine ⟨?_, rfl, ?_⟩
    · intro r hr
      constructor
      · exact ((List.perm_insertionSort strLe _).mem_iff).mpr
          (List.mem_dedup.mpr (List.mem_map_of_mem _ hr))
      · exact ((List.perm_insertionSort strLe _).mem_iff).mpr
          (List.mem_dedup.mpr (List.mem_map_of_mem _ hr))
    · intro m c hno
      have : s.find? (fun r => r.1 = (m, c)) = none := by
        rw [List.find?_eq_none]
        intro r hr
        simp only [decide_eq_true_eq]
        exact hno r hr
      simp [pivot_cell, this]
  · simp only [pivot_data_of] at h
    rw [if_neg hnd] at h
    cases h

theorem pivot_completeness_with_nan_witness :
    "2022-01" ∈ (["2022-01", "2022-02"] : List String) ∧
    pivot_cell [(("2022-01", "A"), (10 : ℚ)), (("2022-02", "B"), (20 : ℚ))] "2022-01" "B"
      = none := by
  have h := pivot_completeness_with_nan
    [(("2022-01", "A"), (10 : ℚ)), (("2022-02", "B"), (20 : ℚ))]
    ⟨["2022-01", "2022-02"], ["A", "B"], [[some 10, none], [none, some 20]]⟩
    (by decide)
  exact ⟨(h.1 (("2022-01", "A"), (10 : ℚ)) (by decide)).1, h.2.2 "2022-01" "B" (by decide)⟩

/-- C5: if any row of the merged table has an unparseable order date, the
derive step fails as a whole with the position of the first such row, and no
derived table is produced at all. -/
theorem derive_fails_fast_on_bad_date (m : List MergedRow)
    (h : ∃ r ∈ m, parseDate r.order_date = none) :
    ∃ i, derive_rows m = .error i ∧
      (∃ hi : i < m.length, parseDate ((m.get ⟨i, hi⟩).order_date) = none) ∧
      ∀ out, derive_rows m ≠ .ok out := by
  obtain ⟨r, hr, hp⟩ := h
  have hex : ∃ s, s ∈ m.map (fun r => r.order_date) ∧ ((parseDate s).isNone : Bool) :=
    ⟨r.order_date, List.mem_map_of_mem _ hr, by rw [hp]; rfl⟩
  have hfind := List.findIdx?_eq_some_of_exists hex
  obtain ⟨hlen, hpi, -⟩ := List.findIdx?_eq_some_iff_getElem.mp hfind
  have hterr : to_datetime (m.map fun r => r.order_date)
      = .error ((m.map fun r => r.order_date).findIdx fun s => (parseDate s).isNone) := by
    simp only [to_datetime]
    rw [hfind]
  have herr : derive_rows m
      = .error ((m.map fun r => r.order_date).findIdx fun s => (parseDate s).isNone) := by
    simp only [derive_rows]
    rw [hterr]
  refine ⟨_, herr, ⟨?_, ?_⟩, ?_⟩
  · simpa using hlen
  · have hg : (m.map fun r => r.order_date)[(m.map fun r =>
        r.order_date).findIdx fun s => (parseDate s).isNone]
        = ((m.get ⟨_, by simpa using hlen⟩).order_date) := by
      simp [List.getElem_map]
    rw [hg] at hpi
    exact Option.isNone_iff_eq_none.mp hpi
  · intro out hout
    rw [herr] at hout
    cases hout

theorem derive_fails_fast_on_bad_date_witness :
    ∃ i, derive_rows [⟨"not-a-date", "A", 1, some 10, none⟩] = .error i ∧
      (∃ hi : i < ([⟨"not-a-date", "A", 1, some 10, none⟩] : List MergedRow).length,
        parseDate ((([⟨"not-a-date", "A", 1, some 10, none⟩] : List MergedRow).get
          ⟨i, hi⟩).order_date) = none) ∧
      ∀ out, derive_rows [⟨"not-a-date", "A", 1, some 10, none⟩] ≠ .ok out :=
  derive_fails_fast_on_bad_date [⟨"not-a-date", "A", 1, some 10, none⟩]
    ⟨⟨"not-a-date", "A", 1, some 10, none⟩, by decide, by decide⟩

/-- C3 counterexample: on a catalog whose price column holds the text "10",
`validate_and_clean_data` reassigns the coerced column onto the stored
`df_info`, so the input table is mutated in place, not left unchanged. -/
theorem validate_mutates_df_info :
    ((SalesDataAnalyzer.validate_and_clean_data
        ⟨some [⟨"A", .str "10", none⟩], some [], none, none⟩).1).df_info
      ≠ some [⟨"A", RawVal.str "10", none⟩] := by decide

/-- C3 as amended: validation never touches `df_sales` (nor `df_merged` /
`monthly_sales`), and leaves `df_info` unchanged exactly when the price column
already has numeric dtype; when the column is not numeric, the method
overwrites the stored `df_info` with the price column coerced cell-by-cell
(no untouched copy is kept). -/
theorem validate_mutation_profile (a : SalesDataAnalyzer) (info : List InfoRow)
    (sales : List SalesRow) (hinfo : a.df_info = some info)
    (hsales : a.df_sales = some sales) :
    ((a.validate_and_clean_data).1.df_sales = a.df_sales ∧
     (a.validate_and_clean_data).1.df_merged = a.df_merged ∧
     (a.validate_and_clean_data).1.monthly_sales = a.monthly_sales) ∧
    (is_numeric_dtype (info.map fun r => r.unit_price) = true →
      (a.validate_and_clean_data).1 = a) ∧
    (is_numeric_dtype (info.map fun r => r.unit_price) = false →
      (a.validate_and_clean_data).1.df_info
        = some (info.map fun r => { r with unit_price := to_numeric_cell r.unit_price })) := by
  rcases a with ⟨i0, s0, m0, ms0⟩
  simp only [SalesDataAnalyzer.df_info] at hinfo
  simp only [SalesDataAnalyzer.df_sales] at hsales
  subst hinfo
  subst hsales
  by_cases hnum : is_numeric_dtype (info.map fun r => r.unit_price) = true
  · simp [SalesDataAnalyzer.validate_and_clean_data, hnum]
  · simp [SalesDataAnalyzer.validate_and_clean_data, hnum]

theorem validate_mutation_profile_witness :
    (SalesDataAnalyzer.validate_and_clean_data
        ⟨some [⟨"A", .num 10, none⟩], some [], none, none⟩).1
      = ⟨some [⟨"A", .num 10, none⟩], some [], none, none⟩ :=
  (validate_mutation_profile ⟨some [⟨"A", .num 10, none⟩], some [], none, none⟩
    [⟨"A", .num 10, none⟩] [] rfl rfl).2.1 (by decide)

/-- C9: calling a pipeline stage before its prerequisite stage has run makes
it raise immediately (`ValueError` in the source), and the failed call leaves
every stored table of the analyzer exactly as it was. -/
theorem stage_guards_raise_before_mutation (a : SalesDataAnalyzer) :
    ((a.df_info = none ∨ a.df_sales = none) →
      a.validate_and_clean_data = (a, .error "请先加载数据") ∧
      a.process_data = (a, .error "请先加载数据")) ∧
    ((a.df_merged = none ∨ a.monthly_sales = none) →
      a.generate_report = (a, .error "请先处理数据")) ∧
    (a.monthly_sales = none →
      a.create_sales_trend_chart = (a, .error "请先处理数据")) := by
  rcases a with ⟨i0, s0, m0, ms0⟩
  simp only [SalesDataAnalyzer.df_info, SalesDataAnalyzer.df_sales,
    SalesDataAnalyzer.df_merged, SalesDataAnalyzer.monthly_sales]
  refine ⟨?_, ?_, ?_⟩
  · rintro (h | h) <;> subst h
    · cases s0 <;> exact ⟨rfl, rfl⟩
    · cases i0 <;> exact ⟨rfl, rfl⟩
  · rintro (h | h) <;> subst h
    · cases ms0 <;> exact rfl
    · cases m0 <;> exact rfl
  · intro h
    subst h
    rfl

theorem stage_guards_raise_before_mutation_witness :
    SalesDataAnalyzer.init.validate_and_clean_data
      = (SalesDataAnalyzer.init, .error "请先加载数据") ∧
    SalesDataAnalyzer.init.process_data
      = (SalesDataAnalyzer.init, .error "请先加载数据") ∧
    SalesDataAnalyzer.init.generate_report
      = (SalesDataAnalyzer.init, .error "请先处理数据") ∧
    SalesDataAnalyzer.init.create_sales_trend_chart
      = (SalesDataAnalyzer.init, .error "请先处理数据") := by
  have h := stage_guards_raise_before_mutation SalesDataAnalyzer.init
  exact ⟨(h.1 (Or.inl rfl)).1, (h.1 (Or.inl rfl)).2, h.2.1 (Or.inl rfl), h.2.2 rfl⟩

lemma merged_unmatched_price_none (info : List InfoRow) :
    ∀ (sales : List SalesRow), ∀ r ∈ merge_sales_info info sales,
      (∀ c ∈ info, c.product_id ≠ r.product_id) → r.unit_price = none
  | [], r, hr, _ => absurd hr (List.not_mem_nil r)
  | t :: ts, r, hr, hun => by
    rw [merge_sales_info] at hr
    rcases List.mem_append.mp hr with hr | hr
    · cases hf : info.filter (fun c => c.product_id = t.product_id) with
      | nil =>
        rw [hf] at hr
        rcases List.mem_singleton.mp hr with rfl
        rfl
      | cons m ms =>
        rw [hf] at hr
        rcases List.mem_map.mp hr with ⟨c, hc, rfl⟩
        have hcmem := List.mem_of_mem_filter (hf ▸ hc)
        have hceq : c.product_id = t.product_id := by
          have := List.of_mem_filter (hf ▸ hc)
          simpa using this
        exact absurd hceq (hun c hcmem)
    · exact merged_unmatched_price_none info ts r hr hun

lemma missing_prices_append (xs ys : List MergedRow) :
    missing_prices (xs ++ ys) = missing_prices xs + missing_prices ys := by
  simp [missing_prices, List.filter_append]

lemma missing_prices_merge (info : List InfoRow)
    (hall : ∀ c ∈ info, (c.unit_price.toPrice).isSome = true) :
    ∀ sales : List SalesRow,
      missing_prices (merge_sales_info info sales)
        = (sales.filter fun t => decide (∀ c ∈ info, c.product_id ≠ t.product_id)).length
  | [] => by simp [merge_sales_info, missing_prices]
  | t :: ts => by
    rw [merge_sales_info, missing_prices_append, missing_prices_merge info hall ts]
    cases hf : info.filter (fun c => c.product_id = t.product_id) with
    | nil =>
      have hun : ∀ c ∈ info, c.product_id ≠ t.product_id := by
        intro c hc
        have := List.filter_eq_nil_iff.mp hf c hc
        simpa using this
      rw [List.filter_cons_of_pos (by simpa using hun)]
      simp [missing_prices]
      omega
    | cons m ms =>
      have hm : m ∈ info ∧ m.product_id = t.product_id := by
        have hmem := List.mem_of_mem_filter (hf ▸ List.mem_cons_self m ms)
        have heq := List.of_mem_filter (hf ▸ List.mem_cons_self m ms)
        exact ⟨hmem, by simpa using heq⟩
      have hnot : ¬ (∀ c ∈ info, c.product_id ≠ t.product_id) := fun hun =>
        hun m hm.1 hm.2
      rw [List.filter_cons_of_neg (by simpa using hnot)]
      have hz : missing_prices ((m :: ms).map fun c =>
          (⟨t.order_date, t.product_id, t.quantity, c.unit_price.toPrice, c.category⟩ :
            MergedRow)) = 0 := by
        simp only [missing_prices, List.length_eq_zero]
        rw [List.filter_eq_nil_iff]
        intro x hx
        rcases List.mem_map.mp hx with ⟨c, hc, rfl⟩
        have hs := hall c (List.mem_of_mem_filter (hf ▸ hc))
        simp only [decide_eq_true_eq]
        intro he
        rw [he] at hs
        cases hs
      rw [hz]
      omega

lemma mem_fillna_price (m : List MergedRow) (v : Option ℚ) (r : MergedRow) :
    r ∈ fillna_price m v ↔
      ∃ r0 ∈ m, r = { r0 with unit_price := r0.unit_price.or v } := by
  simp [fillna_price, List.mem_map, eq_comm]

/-- With a catalog row whose price is null and a transaction that matches it,
`missing_prices` (the `isnull().sum()` the code logs as the unmatched count)
is 1 although no transaction row is unmatched: the count tracks null joined
prices, not unmatched ids. -/
lemma matched_null_price_counted :
    missing_prices (merge_sales_info [⟨"A", RawVal.null, none⟩] [⟨"2022-01-05", "A", 1⟩]) = 1 ∧
    (([⟨"2022-01-05", "A", 1⟩] : List SalesRow).filter fun t =>
        decide (∀ c ∈ ([⟨"A", RawVal.null, none⟩] : List InfoRow),
          c.product_id ≠ t.product_id)).length = 0 :=
  ⟨by decide, by decide⟩

/-- C4 as amended: whenever the catalog has at least one non-null price, the
catalog mean exists and every row of the filled merge whose product id has no
catalog match carries exactly that mean as its price; the missing-price count
(what the code logs as the unmatched count) counts every null joined price,
and it equals the number of unmatched transaction rows when every catalog
price is non-null — a matched row whose catalog price is null is also counted
(see `matched_null_price_counted`), so that equality does not hold in general.
(When the catalog is empty the mean is `NaN`, the fill leaves unmatched prices
`NaN` — not 0 — and no extra warning is emitted; see the counterexample.) -/
theorem unmatched_price_mean_fill (info : List InfoRow) (sales : List SalesRow)
    (hne : catalog_prices info ≠ []) :
    (avg_price info).isSome = true ∧
    (∀ r ∈ df_merged_of info sales,
      (∀ c ∈ info, c.product_id ≠ r.product_id) → r.unit_price = avg_price info) ∧
    ((∀ c ∈ info, (c.unit_price.toPrice).isSome = true) →
      missing_prices (merge_sales_info info sales)
        = (sales.filter fun t => decide (∀ c ∈ info, c.product_id ≠ t.product_id)).length) := by
  have havg : (avg_price info).isSome = true := by
    rw [avg_price]
    cases hc : catalog_prices info with
    | nil => exact absurd hc hne
    | cons p ps => rfl
  refine ⟨havg, ?_, fun hall => missing_prices_merge info hall sales⟩
  intro r hr hun
  rw [df_merged_of] at hr
  by_cases hmp : 0 < missing_prices (merge_sales_info info sales)
  · rw [if_pos hmp] at hr
    obtain ⟨r0, hr0, rfl⟩ := (mem_fillna_price _ _ _).mp hr
    have h0 : r0.unit_price = none :=
      merged_unmatched_price_none info sales r0 hr0 (by simpa using hun)
    simp [h0]
  · rw [if_neg hmp] at hr
    have h0 : r.unit_price = none :=
      merged_unmatched_price_none info sales r hr hun
    have : 0 < missing_prices (merge_sales_info info sales) := by
      have hmem : r ∈ (merge_sales_info info sales).filter fun x => x.unit_price = none :=
        List.mem_filter.mpr ⟨hr, by simp [h0]⟩
      have := List.length_pos.mpr (List.ne_nil_of_mem hmem)
      simpa [missing_prices] using this
    exact absurd this hmp

/-- C4 counterexample: with an empty catalog, the unmatched row's price stays
`NaN` — the mean of an empty price series is `NaN` and `fillna(NaN)` fills
nothing — not the price 0 the claim states (nor is any extra warning branch
present in the code). -/
theorem empty_catalog_fill_is_nan :
    (df_merged_of [] [⟨"2022-01-05", "C", 2⟩]).map (fun r => r.unit_price) = [none] ∧
    (none : Option ℚ) ≠ some 0 :=
  ⟨by decide, by decide⟩

theorem unmatched_price_mean_fill_witness :
    avg_price [⟨"A", RawVal.num 10, none⟩, ⟨"B", RawVal.num 20, none⟩] = some 15 ∧
    missing_prices (merge_sales_info
        [⟨"A", RawVal.num 10, none⟩, ⟨"B", RawVal.num 20, none⟩]
        [⟨"2022-01-05", "C", 1⟩]) = 1 ∧
    (df_merged_of [⟨"A", RawVal.num 10, none⟩, ⟨"B", RawVal.num 20, none⟩]
        [⟨"2022-01-05", "C", 1⟩]).map (fun r => r.unit_price) = [some 15] := by
  have h := unmatched_price_mean_fill
    [⟨"A", RawVal.num 10, none⟩, ⟨"B", RawVal.num 20, none⟩]
    [⟨"2022-01-05", "C", 1⟩] (by decide)
  have hc : catalog_prices [⟨"A", RawVal.num 10, none⟩, ⟨"B", RawVal.num 20, none⟩]
      = [10, 20] := by decide
  have havg : avg_price [⟨"A", RawVal.num 10, none⟩, ⟨"B", RawVal.num 20, none⟩]
      = some 15 := by
    simp only [avg_price, hc]
    norm_num
  have hcount : missing_prices (merge_sales_info
      [⟨"A", RawVal.num 10, none⟩, ⟨"B", RawVal.num 20, none⟩]
      [⟨"2022-01-05", "C", 1⟩]) = 1 := by
    rw [h.2.2 (by decide)]
    decide
  refine ⟨havg, hcount, ?_⟩
  have hmerge : merge_sales_info [⟨"A", RawVal.num 10, none⟩, ⟨"B", RawVal.num 20, none⟩]
      [⟨"2022-01-05", "C", 1⟩] = [⟨"2022-01-05", "C", 1, none, none⟩] := by decide
  simp only [df_merged_of, hmerge]
  rw [if_pos (by decide)]
  simp [fillna_price, havg, Option.or]

lemma sorted_head_le_monthLe :
    ∀ l : List (String × ℚ), l.Sorted monthLe → ∀ x ∈ l, monthLe l.headI x
  | [], _, x, hx => absurd hx (List.not_mem_nil x)
  | a :: t, hs, x, hx => by
    rcases List.mem_cons.mp hx with rfl | hx
    · exact refl_of monthLe _
    · exact (List.pairwise_cons.mp hs).1 x hx

lemma sorted_le_getLast?_monthLe :
    ∀ l : List (String × ℚ), l.Sorted monthLe → ∀ x ∈ l, ∀ y, l.getLast? = some y →
      monthLe x y
  | [], _, x, hx, _, _ => absurd hx (List.not_mem_nil x)
  | a :: t, hs, x, hx, y, hy => by
    cases t with
    | nil =>
      rcases List.mem_singleton.mp hx with rfl
      have hxy : x = y := by simpa using hy
      rw [hxy]
      exact refl_of monthLe _
    | cons b t2 =>
      rw [List.getLast?_cons_cons] at hy
      rcases List.mem_cons.mp hx with rfl | hx
      · exact (List.pairwise_cons.mp hs).1 y (List.mem_of_getLast?_eq_some hy)
      · exact sorted_le_getLast?_monthLe (b :: t2) (List.pairwise_cons.mp hs).2 x hx y hy

/-- C6: the reported growth rate is 0 when the monthly summary has fewer than
two rows; otherwise the first (`iloc[0]`) and last (`iloc[-1]`) rows are the
minimum and maximum of the month keys (the summary is sorted ascending), the
rate is 0 when the first month's revenue is 0 regardless of the last value,
and otherwise it equals `(last - first) / first * 100`. -/
theorem growth_rate_formula (rows : List DerivedRow) :
    ((monthly_sales_of rows).length < 2 →
      calculate_growth_rate (monthly_sales_of rows) = 0) ∧
    (2 ≤ (monthly_sales_of rows).length →
      (∀ x ∈ monthly_sales_of rows,
        strLe (monthly_sales_of rows).headI.1 x.1 ∧
        strLe x.1 (monthly_sales_of rows).getLastI.1) ∧
      ((monthly_sales_of rows).headI.2 = 0 →
        calculate_growth_rate (monthly_sales_of rows) = 0) ∧
      ((monthly_sales_of rows).headI.2 ≠ 0 →
        calculate_growth_rate (monthly_sales_of rows)
          = ((monthly_sales_of rows).getLastI.2 - (monthly_sales_of rows).headI.2)
              / (monthly_sales_of rows).headI.2 * 100)) := by
  have hsorted : (monthly_sales_of rows).Sorted monthLe :=
    List.sorted_insertionSort monthLe _
  constructor
  · intro hlt
    rw [calculate_growth_rate, if_pos hlt]
  · intro h2
    have hne : monthly_sales_of rows ≠ [] := by
      intro he
      rw [he] at h2
      simp at h2
    obtain ⟨y, hy⟩ := Option.isSome_iff_exists.mp
      (Option.isSome_iff_ne_none.mpr (mt List.getLast?_eq_none_iff.mp hne))
    have hlastI : (monthly_sales_of rows).getLastI = y := by
      rw [List.getLastI_eq_getLast?, hy]
    refine ⟨?_, ?_, ?_⟩
    · intro x hx
      refine ⟨sorted_head_le_monthLe _ hsorted x hx, ?_⟩
      rw [hlastI]
      exact sorted_le_getLast?_monthLe _ hsorted x hx y hy
    · intro hz
      rw [calculate_growth_rate, if_neg (by omega)]
      simp [hz]
    · intro hz
      rw [calculate_growth_rate, if_neg (by omega)]
      simp [hz]

theorem growth_rate_formula_witness :
    calculate_growth_rate (monthly_sales_of
      [⟨"2022-01-05", "A", 2, some 10, none, some 50, "2022-01"⟩,
       ⟨"2022-02-01", "A", 1, some 10, none, some 10, "2022-02"⟩]) = -80 := by
  have h := growth_rate_formula
    [⟨"2022-01-05", "A", 2, some 10, none, some 50, "2022-01"⟩,
     ⟨"2022-02-01", "A", 1, some 10, none, some 10, "2022-02"⟩]
  have hkeys : sorted_month_keys
      [⟨"2022-01-05", "A", 2, some 10, none, some 50, "2022-01"⟩,
       ⟨"2022-02-01", "A", 1, some 10, none, some 10, "2022-02"⟩]
      = ["2022-01", "2022-02"] := by decide
  have hg1 : month_group_sum
      [⟨"2022-01-05", "A", 2, some 10, none, some 50, "2022-01"⟩,
       ⟨"2022-02-01", "A", 1, some 10, none, some 10, "2022-02"⟩] "2022-01" = 50 := by
    simp +decide [month_group_sum]
  have hg2 : month_group_sum
      [⟨"2022-01-05", "A", 2, some 10, none, some 50, "2022-01"⟩,
       ⟨"2022-02-01", "A", 1, some 10, none, some 10, "2022-02"⟩] "2022-02" = 10 := by
    simp +decide [month_group_sum]
  have hms : monthly_sales_of
      [⟨"2022-01-05", "A", 2, some 10, none, some 50, "2022-01"⟩,
       ⟨"2022-02-01", "A", 1, some 10, none, some 10, "2022-02"⟩]
      = [("2022-01", 50), ("2022-02", 10)] := by
    rw [monthly_sales_of, groupby_month_sum, hkeys]
    simp only [List.map_cons, List.map_nil, hg1, hg2]
    simp only [List.insertionSort, List.orderedInsert]
    rw [if_pos (by decide)]
  rw [(h.2 (by rw [hms]; decide)).2.2 (by rw [hms]; norm_num), hms]
  norm_num [List.getLastI]
